import Mathlib

/-!
# Remote read handler of `pkg/querier/remote_read.go`

A shallow embedding of `RemoteReadHandler` and `seriesSetToQueryResponse`.

* The Prometheus storage interfaces (`SeriesSet`, `Series`, sample iterator)
  are finite and forward-only; each is embedded as the sequence of values its
  `Next`/`At` calls yield together with the value its final `Err` call returns.
* The goroutine launched per sub-query is embedded as the sequence of its
  effects on shared state (`goroutine`), and the handler as an interleaving
  semantics (`step`, `run`) over a schedule that picks which goroutine moves.
  The program has no data race (a slot is written before the send that the
  coordinator receives before it reads the slot), so interleaving the effects
  one at a time covers its executions.
-/

namespace RemoteRead

/-! ## Data model -/

/-- A Go `error` value, identified by the text its `Error()` method returns. -/
structure Error where
  message : String
  deriving DecidableEq, Repr

/-- A `float64` sample value given by its IEEE-754 bit pattern. The handler only
copies sample values, it never computes with them. -/
abbrev Float64 := Nat

/-- One label of a series (`labels.Label`). -/
structure Label where
  Name : String
  Value : String
  deriving DecidableEq, Repr

/-- The label set of a series (`labels.Labels`). -/
abbrev Labels := List Label

/-- Modelled from the spec: `mimirpb.LabelAdapter`, the wire representation of one
label (a name and a value); its declaration is in `pkg/mimirpb`. -/
structure LabelAdapter where
  Name : String
  Value : String
  deriving DecidableEq, Repr

/-- Modelled from the spec: `mimirpb.Sample`, a timestamp in milliseconds and a
value; its declaration is in `pkg/mimirpb`. -/
structure Sample where
  TimestampMs : Int
  Value : Float64
  deriving DecidableEq, Repr

/-- Modelled from the spec: `mimirpb.TimeSeries`, a label list and a sample list;
its declaration is in `pkg/mimirpb`. -/
structure TimeSeries where
  Labels : List LabelAdapter
  Samples : List Sample
  deriving DecidableEq, Repr

/-- Modelled from the spec: `client.QueryResponse`, the result slot of one
sub-query; its declaration is in `pkg/ingester/client`. -/
structure QueryResponse where
  Timeseries : List TimeSeries
  deriving DecidableEq, Repr

/-- A sample iterator (`chunkenc.Iterator`): the `(t, v)` pairs that `At` returns
while `Next` reports true, and the value of `Err` once `Next` reported false. -/
structure SampleIterator where
  samples : List (Int × Float64)
  err : Option Error
  deriving DecidableEq, Repr

/-- One series of a series set (`storage.Series`): `Labels()` and `Iterator()`. -/
structure Series where
  labels : Labels
  iterator : SampleIterator
  deriving DecidableEq, Repr

/-- A series set (`storage.SeriesSet`): the series that `At` returns while `Next`
reports true, and the value of `Err` once `Next` reported false. -/
structure SeriesSet where
  series : List Series
  err : Option Error
  deriving DecidableEq, Repr

/-! ## `seriesSetToQueryResponse` (lines 83-107) -/

/-- The inner loop of lines 90-96: each `(t, v)` the iterator yields is appended
to `samples`. -/
def drainIterator : List (Int × Float64) → List Sample → List Sample
  | [], samples => samples
  | (t, v) :: rest, samples =>
    drainIterator rest (samples ++ [{ TimestampMs := t, Value := v }])

/-- The outer loop of lines 86-104 over the series the set yields. `Except.error`
is the early `return nil, err` of line 98, `Except.ok` is leaving the loop with
`result`. The first argument is `mimirpb.FromLabelsToLabelAdapters`, which is
declared in `pkg/mimirpb`. -/
def seriesLoop (FromLabelsToLabelAdapters : Labels → List LabelAdapter) :
    List Series → QueryResponse → Except Error QueryResponse
  | [], result => .ok result
  | series :: rest, result =>
    let samples := drainIterator series.iterator.samples []
    match series.iterator.err with
    | some err => .error err
    | none =>
      seriesLoop FromLabelsToLabelAdapters rest
        { Timeseries := result.Timeseries ++
            [{ Labels := FromLabelsToLabelAdapters series.labels, Samples := samples }] }

/-- The function `seriesSetToQueryResponse`: the returned pointer (`none` is
`nil`) and the returned error (`none` is `nil`). -/
def seriesSetToQueryResponse (FromLabelsToLabelAdapters : Labels → List LabelAdapter)
    (s : SeriesSet) : Option QueryResponse × Option Error :=
  match seriesLoop FromLabelsToLabelAdapters s.series { Timeseries := [] } with
  | .error err => (none, some err)
  | .ok result => (some result, s.err)

/-! ## Requests, responses and the storage interface -/

/-- Modelled from the spec: a label matcher of a sub-query (match kind, label
name, pattern); its declaration is in the Prometheus `labels` package. -/
structure Matcher where
  Kind : Nat
  Name : String
  Value : String
  deriving DecidableEq, Repr

/-- Modelled from the spec: `client.QueryRequest`, one sub-query on the wire (a
time range and label matchers); its declaration is in `pkg/ingester/client`. -/
structure QueryRequest where
  StartTimestampMs : Int
  EndTimestampMs : Int
  Matchers : List Matcher
  deriving DecidableEq, Repr

/-- Modelled from the spec: `client.ReadRequest`, the ordered sub-queries; its
declaration is in `pkg/ingester/client`. -/
structure ReadRequest where
  Queries : List QueryRequest
  deriving DecidableEq, Repr

/-- Modelled from the spec: `client.ReadResponse`, one slot per sub-query, each a
pointer to a `QueryResponse` (`none` is `nil`); its declaration is in
`pkg/ingester/client`. -/
structure ReadResponse where
  Results : List (Option QueryResponse)
  deriving DecidableEq, Repr

/-- The fields of `storage.SelectHints` that the handler sets. -/
structure SelectHints where
  Start : Int
  End : Int
  deriving DecidableEq, Repr

/-- A `storage.Querier`: its `Select(sortSeries, hints, matchers...)` method. -/
structure Querier where
  Select : Bool → SelectHints → List Matcher → SeriesSet

/-- A `storage.Queryable`: its `Querier(ctx, mint, maxt)` method, which may fail. -/
structure Queryable where
  Querier : Int → Int → Except Error Querier

/-- The parts of the `http.Request` the handler reads: the body bytes and the
declared content length (`-1` when unknown). -/
structure Request where
  Body : List Nat
  ContentLength : Int
  deriving DecidableEq, Repr

/-- The functions of this repository that `remote_read.go` calls and that are
declared in other packages (`pkg/util`, `pkg/ingester/client`, `pkg/mimirpb`).
`ParseProtoReader` takes the body, the expected size and the size ceiling;
`SerializeProtoResponse` gives the error it returns (`none` is `nil`). -/
structure Env where
  ParseProtoReader : List Nat → Int → Int → Except Error ReadRequest
  FromQueryRequest : QueryRequest → Except Error (Int × Int × List Matcher)
  FromLabelsToLabelAdapters : Labels → List LabelAdapter
  SerializeProtoResponse : ReadResponse → Option Error

/-- The constant `maxRemoteReadQuerySize` of line 22. -/
def maxRemoteReadQuerySize : Int := 1024 * 1024

/-- The constant `http.StatusBadRequest`. -/
def StatusBadRequest : Nat := 400

/-- Modelled from the spec: the error `PayloadTooLarge` of the wire codec. -/
def PayloadTooLarge : Error := { message := "PayloadTooLarge" }

/-- Modelled from the spec: `util.ParseProtoReader` of `pkg/util`, the decode step
of the wire codec. It fails with `PayloadTooLarge` when the declared length
exceeds the ceiling; otherwise the outcome is that of decompressing and parsing
the body under the ceiling (`decode`), which may fail as well. -/
def ParseProtoReader (decode : List Nat → Int → Except Error ReadRequest)
    (body : List Nat) (expectedSize maxSize : Int) : Except Error ReadRequest :=
  if expectedSize > maxSize then .error PayloadTooLarge else decode body maxSize

/-! ## The goroutine of one sub-query (lines 42-62) -/

/-- The effects of a goroutine on the world outside it, in program order. -/
inductive Action where
  /-- The call `q.Querier(ctx, from, to)` of line 49. -/
  | querier (tFrom tTo : Int)
  /-- The call `querier.Select(false, params, matchers...)` of line 59. -/
  | select (sortSeries : Bool) (params : SelectHints) (matchers : List Matcher)
  /-- The assignment `resp.Results[i] = result` of line 60. -/
  | write (i : Nat) (result : Option QueryResponse)
  /-- A send `errors <- err` (lines 45, 51, 61). -/
  | send (err : Option Error)
  deriving DecidableEq, Repr

/-- The body of the goroutine launched at line 42 with arguments `i` and `qr`:
the sequence of its effects. Its control flow depends on its own arguments and on
the storage only, so the sequence is determined before it runs. -/
def goroutine (env : Env) (q : Queryable) (i : Nat) (qr : QueryRequest) : List Action :=
  match env.FromQueryRequest qr with
  | .error err => [.send (some err)]
  | .ok (tFrom, tTo, matchers) =>
    match q.Querier tFrom tTo with
    | .error err => [.querier tFrom tTo, .send (some err)]
    | .ok querier =>
      let params : SelectHints := { Start := tFrom, End := tTo }
      let seriesSet := querier.Select false params matchers
      let (result, err) := seriesSetToQueryResponse env.FromLabelsToLabelAdapters seriesSet
      [.querier tFrom tTo, .select false params matchers, .write i result, .send err]

/-- The loop of lines 41-63: goroutine `i` is launched for the sub-query at index
`i`; the first argument is the index of the head of the list. -/
def launch (env : Env) (q : Queryable) : Nat → List QueryRequest → List (List Action)
  | _, [] => []
  | i, qr :: rest => goroutine env q i qr :: launch env q (i + 1) rest

/-! ## The handler (lines 25-81) -/

/-- What an execution of the handler does, in the order it happens. -/
inductive Event where
  /-- Goroutine `k` performed `a`; for a send this is the rendezvous with the
  receive `err := <-errors` of line 67. -/
  | act (k : Nat) (a : Action)
  /-- A line logged at error level (lines 31, 78). -/
  | log (msg : String) (err : String)
  /-- The call `http.Error(w, body, code)` (lines 32, 73). -/
  | httpError (body : String) (code : Nat)
  /-- The call `w.Header().Add(key, value)` (line 76). -/
  | headerAdd (key : String) (value : String)
  /-- The call `util.SerializeProtoResponse(w, &resp, util.RawSnappy)` (line 77);
  what the call does to `w` is decided in `pkg/util`. -/
  | serialize (resp : ReadResponse)
  deriving DecidableEq, Repr

/-- The body of the drain loop, lines 68-70. -/
def recordErr (lastErr : Option Error) (err : Option Error) : Option Error :=
  match err with
  | some e => some e
  | none => lastErr

/-- The state shared by the coordinator and its goroutines after line 63. -/
structure State where
  /-- The slot array `resp.Results`. -/
  Results : List (Option QueryResponse)
  /-- For each goroutine, the effects it has still to perform. -/
  units : List (List Action)
  /-- The iterations the drain loop of lines 66-71 has still to make. -/
  pending : Nat
  /-- The variable `lastErr`. -/
  lastErr : Option Error
  /-- What happened so far. -/
  trace : List Event
  deriving DecidableEq, Repr

/-- The state after the launch loop: `make` filled the slots with `nil`. -/
def init (env : Env) (q : Queryable) (req : ReadRequest) : State :=
  { Results := List.replicate req.Queries.length none
    units := launch env q 0 req.Queries
    pending := req.Queries.length
    lastErr := none
    trace := [] }

/-- Goroutine `k` is scheduled for its next effect. A send on the unbuffered
channel `errors` happens only together with a receive of the drain loop, which
then runs its body; a goroutine that has finished, or whose send finds no
receiver, does not move. -/
def step (s : State) (k : Nat) : State :=
  match s.units[k]? with
  | none => s
  | some [] => s
  | some (a :: rest) =>
    match a with
    | .send err =>
      if s.pending = 0 then s
      else
        { Results := s.Results
          units := s.units.set k rest
          pending := s.pending - 1
          lastErr := recordErr s.lastErr err
          trace := s.trace ++ [.act k a] }
    | .write i result =>
      { Results := s.Results.set i result
        units := s.units.set k rest
        pending := s.pending
        lastErr := s.lastErr
        trace := s.trace ++ [.act k a] }
    | _ =>
      { Results := s.Results
        units := s.units.set k rest
        pending := s.pending
        lastErr := s.lastErr
        trace := s.trace ++ [.act k a] }

/-- The state after the goroutines were scheduled in the order of `sched`. -/
def run (s : State) (sched : List Nat) : State :=
  sched.foldl step s

/-- Lines 72-79, run once the drain loop has finished. -/
def respond (env : Env) (s : State) : List Event :=
  match s.lastErr with
  | some lastErr => [.httpError lastErr.message StatusBadRequest]
  | none =>
    .headerAdd "Content-Type" "application/x-protobuf" ::
    .serialize { Results := s.Results } ::
    (match env.SerializeProtoResponse { Results := s.Results } with
     | some err => [.log "error sending remote read response" err.message]
     | none => [])

/-- The handler `RemoteReadHandler(q, logger)` serving request `r` while its
goroutines are scheduled in the order of `sched`: the events of the execution,
or `none` while the handler is still blocked in its drain loop at the end of
`sched`. -/
def RemoteReadHandler (env : Env) (q : Queryable) (r : Request) (sched : List Nat) :
    Option (List Event) :=
  match env.ParseProtoReader r.Body r.ContentLength maxRemoteReadQuerySize with
  | .error err =>
    some [.log "failed to parse proto" err.message, .httpError err.message StatusBadRequest]
  | .ok req =>
    let s := run (init env q req) sched
    if s.pending = 0 then some (s.trace ++ respond env s) else none

/-- The completion signals received so far, in the order the drain loop received
them. -/
def received (trace : List Event) : List (Option Error) :=
  trace.filterMap fun ev =>
    match ev with
    | .act _ (.send err) => some err
    | _ => none

/-- The time series that lines 88-103 build from a series whose iterator ends
without error. -/
def toTimeSeries (conv : Labels → List LabelAdapter) (x : Series) : TimeSeries :=
  { Labels := conv x.labels
    Samples := x.iterator.samples.map (fun p => { TimestampMs := p.1, Value := p.2 }) }

/-! ## Bookkeeping for the interleaving semantics -/

/-- The effects goroutine `k` has performed so far, in order. -/
def actsOf (k : Nat) (trace : List Event) : List Action :=
  trace.filterMap fun ev =>
    match ev with
    | .act j a => if j = k then some a else none
    | _ => none

/-- The content of a slot that started as `nil` after its goroutine performed
`acts`. -/
def slotAfter (acts : List Action) : Option QueryResponse :=
  acts.foldl (fun cur a =>
    match a with
    | .write _ result => result
    | _ => cur) none

/-- Shape of what goroutine `k` has still to do: it ends with its only send, and
every slot it writes is slot `k`. -/
def wellFormed (k : Nat) : List Action → Bool
  | [] => false
  | a :: rest =>
    match a with
    | .send _ => rest.isEmpty
    | .write i _ => decide (i = k) && wellFormed k rest
    | _ => wellFormed k rest

/-- The slot array after goroutine `k` performed `a`. -/
def resultsAfter (k : Nat) (a : Action) (results : List (Option QueryResponse)) :
    List (Option QueryResponse) :=
  match a with
  | .write _ result => results.set k result
  | _ => results

/-- The number of signals `a` puts on the channel. -/
def sendCount (a : Action) : Nat :=
  match a with
  | .send _ => 1
  | _ => 0

/-- The variable `lastErr` after `a` was performed. -/
def lastErrAfter (a : Action) (lastErr : Option Error) : Option Error :=
  match a with
  | .send err => recordErr lastErr err
  | _ => lastErr

/-- The invariant of the interleaving semantics for the goroutine programs `P`. -/
structure Inv (P : List (List Action)) (s : State) : Prop where
  units_len : s.units.length = P.length
  results_len : s.Results.length = P.length
  pending_eq : s.pending = s.units.countP (fun u => !u.isEmpty)
  wf_units : ∀ k u, s.units[k]? = some u → u = [] ∨ wellFormed k u = true
  prog : ∀ k u, s.units[k]? = some u → P[k]? = some (actsOf k s.trace ++ u)
  slots : ∀ k, k < P.length → s.Results[k]? = some (slotAfter (actsOf k s.trace))
  lastErr_eq : s.lastErr = (received s.trace).foldl recordErr none
  recv_len : (received s.trace).length + s.pending = P.length
  trace_acts : ∀ ev ∈ s.trace, ∃ k a, ev = Event.act k a ∧ k < P.length

/-! ## Concrete inputs -/

/-- The label set of the metric `up`. -/
def exUp : Labels := [{ Name := "__name__", Value := "up" }]

/-- A label conversion that copies every label verbatim. -/
def exConv : Labels → List LabelAdapter :=
  fun ls => ls.map fun l => { Name := l.Name, Value := l.Value }

/-- A set of two series that iterates without error; the second has no samples. -/
def exSetOk : SeriesSet :=
  { series :=
      [{ labels := exUp, iterator := { samples := [(60, 4602678819172646912),
          (120, 4604480259023595110)], err := none } },
       { labels := [], iterator := { samples := [], err := none } }]
    err := none }

/-- An iterator that yields one sample and then reports an error. -/
def exIterErr : SampleIterator :=
  { samples := [(60, 4602678819172646912)], err := some { message := "iterator failed" } }

/-- A set whose second series has the iterator `exIterErr`; a third series
follows it. -/
def exSetIterErr : SeriesSet :=
  { series :=
      [{ labels := exUp, iterator := { samples := [(10, 4607182418800017408)], err := none } },
       { labels := exUp, iterator := exIterErr },
       { labels := exUp, iterator := { samples := [(70, 0)], err := none } }]
    err := none }

/-- A set that yields one error-free series and then reports an error itself. -/
def exSetErr : SeriesSet :=
  { series :=
      [{ labels := exUp, iterator := { samples := [(10, 4607182418800017408)], err := none } }]
    err := some { message := "set failed" } }

/-- The matcher `__name__ = "up"` (kind 0 is equality). -/
def exMatcher : Matcher := { Kind := 0, Name := "__name__", Value := "up" }

/-- The sub-query for `up` over `[0, 100]`. -/
def exQueryA : QueryRequest :=
  { StartTimestampMs := 0, EndTimestampMs := 100, Matchers := [exMatcher] }

/-- The sub-query for `up` over `[50, 150]`. -/
def exQueryB : QueryRequest :=
  { StartTimestampMs := 50, EndTimestampMs := 150, Matchers := [exMatcher] }

/-- A request with the two sub-queries `exQueryA` and `exQueryB`. -/
def exReq : ReadRequest := { Queries := [exQueryA, exQueryB] }

/-- A body decoder that yields `exReq` for every body. -/
def exDecode : List Nat → Int → Except Error ReadRequest :=
  fun _ _ => .ok exReq

/-- A request conversion that takes the range and the matchers as they are. -/
def exFromQueryRequest : QueryRequest → Except Error (Int × Int × List Matcher) :=
  fun qr => .ok (qr.StartTimestampMs, qr.EndTimestampMs, qr.Matchers)

/-- An environment whose encoder succeeds. -/
def exEnv : Env :=
  { ParseProtoReader := ParseProtoReader exDecode
    FromQueryRequest := exFromQueryRequest
    FromLabelsToLabelAdapters := exConv
    SerializeProtoResponse := fun _ => none }

/-- An environment whose encoder fails. -/
def exEnvEncodeFail : Env :=
  { ParseProtoReader := ParseProtoReader exDecode
    FromQueryRequest := exFromQueryRequest
    FromLabelsToLabelAdapters := exConv
    SerializeProtoResponse := fun _ => some { message := "encode failed" } }

/-- The series `up` with the sample `(10, 1.0)`. -/
def exQuerierA : Querier :=
  { Select := fun _ _ _ =>
      { series := [{ labels := exUp,
                     iterator := { samples := [(10, 4607182418800017408)], err := none } }]
        err := none } }

/-- The series `up` with the samples `(60, 0.5)` and `(120, 0.7)`. -/
def exQuerierB : Querier :=
  { Select := fun _ _ _ =>
      { series := [{ labels := exUp,
                     iterator := { samples := [(60, 4602678819172646912),
                                               (120, 4604480259023595110)], err := none } }]
        err := none } }

/-- The series `up` whose iterator yields `(60, 0.5)` and then fails. -/
def exQuerierBad : Querier :=
  { Select := fun _ _ _ => { series := [{ labels := exUp, iterator := exIterErr }], err := none } }

/-- A storage that answers the range starting at `0` with `exQuerierA` and every
other range with `exQuerierB`. -/
def exQueryable : Queryable :=
  { Querier := fun tFrom _ => if tFrom = 0 then .ok exQuerierA else .ok exQuerierB }

/-- A storage that answers the range starting at `0` with `exQuerierA` and every
other range with `exQuerierBad`. -/
def exQueryableBad : Queryable :=
  { Querier := fun tFrom _ => if tFrom = 0 then .ok exQuerierA else .ok exQuerierBad }

/-- A querier whose series set is `exSetErr`: one series, then an error of the
set itself. -/
def exQuerierSetErr : Querier :=
  { Select := fun _ _ _ => exSetErr }

/-- A storage that answers every range with `exQuerierSetErr`. -/
def exQueryableSetErr : Queryable :=
  { Querier := fun _ _ => .ok exQuerierSetErr }

/-- A request of declared length 10. -/
def exRequest : Request := { Body := [], ContentLength := 10 }

/-- A request of declared length 2000000, above the ceiling. -/
def exBigRequest : Request := { Body := [], ContentLength := 2000000 }

/-- A schedule in which goroutine 1 starts first and finishes last. -/
def exSched : List Nat := [1, 1, 0, 1, 0, 0, 0, 1]

/-- A schedule in which goroutine 0 runs to its end before goroutine 1 starts. -/
def exSchedInOrder : List Nat := [0, 0, 0, 0, 1, 1, 1, 1]

/-- The response of the scenario: one series with one sample in slot 0, one
series with two samples in slot 1. -/
def exResponse : ReadResponse :=
  { Results :=
      [some { Timeseries :=
          [{ Labels := [{ Name := "__name__", Value := "up" }]
             Samples := [{ TimestampMs := 10, Value := 4607182418800017408 }] }] },
       some { Timeseries :=
          [{ Labels := [{ Name := "__name__", Value := "up" }]
             Samples := [{ TimestampMs := 60, Value := 4602678819172646912 },
                         { TimestampMs := 120, Value := 4604480259023595110 }] }] }] }

/-- What the goroutines do on the storage `exQueryable` under `exSched`. -/
def exTrace : List Event :=
  [Event.act 1 (Action.querier 50 150),
   Event.act 1 (Action.select false { Start := 50, End := 150 } [exMatcher]),
   Event.act 0 (Action.querier 0 100),
   Event.act 1 (Action.write 1 (exResponse.Results.getD 1 none)),
   Event.act 0 (Action.select false { Start := 0, End := 100 } [exMatcher]),
   Event.act 0 (Action.write 0 (exResponse.Results.getD 0 none)),
   Event.act 0 (Action.send none),
   Event.act 1 (Action.send none)]

/-- What the goroutines do on the storage `exQueryableBad` under `exSched`. -/
def exTraceBad : List Event :=
  [Event.act 1 (Action.querier 50 150),
   Event.act 1 (Action.select false { Start := 50, End := 150 } [exMatcher]),
   Event.act 0 (Action.querier 0 100),
   Event.act 1 (Action.write 1 none),
   Event.act 0 (Action.select false { Start := 0, End := 100 } [exMatcher]),
   Event.act 0 (Action.write 0 (exResponse.Results.getD 0 none)),
   Event.act 0 (Action.send none),
   Event.act 1 (Action.send (some { message := "iterator failed" }))]

/-! ## Lemmas on `seriesSetToQueryResponse` -/

theorem drainIterator_eq (l : List (Int × Float64)) (acc : List Sample) :
    drainIterator l acc = acc ++ l.map (fun p => { TimestampMs := p.1, Value := p.2 }) := by
  induction l generalizing acc with
  | nil => simp [drainIterator]
  | cons p rest ih =>
    obtain ⟨t, v⟩ := p
    simp [drainIterator, ih]

theorem seriesLoop_ok (conv : Labels → List LabelAdapter) (l : List Series)
    (h : ∀ x ∈ l, x.iterator.err = none) (result : QueryResponse) :
    seriesLoop conv l result =
      .ok { Timeseries := result.Timeseries ++ l.map (toTimeSeries conv) } := by
  induction l generalizing result with
  | nil => simp [seriesLoop]
  | cons x rest ih =>
    have hx : x.iterator.err = none := h x (List.mem_cons_self _ _)
    have hr : ∀ y ∈ rest, y.iterator.err = none :=
      fun y hy => h y (List.mem_cons_of_mem _ hy)
    simp only [seriesLoop, hx]
    rw [ih hr]
    simp [toTimeSeries, drainIterator_eq]

theorem seriesLoop_error (conv : Labels → List LabelAdapter) (pre : List Series)
    (bad : Series) (post : List Series) (e : Error)
    (hpre : ∀ x ∈ pre, x.iterator.err = none) (hbad : bad.iterator.err = some e)
    (result : QueryResponse) :
    seriesLoop conv (pre ++ bad :: post) result = .error e := by
  induction pre generalizing result with
  | nil => simp [seriesLoop, hbad]
  | cons x rest ih =>
    have hx : x.iterator.err = none := hpre x (List.mem_cons_self _ _)
    have hr : ∀ y ∈ rest, y.iterator.err = none :=
      fun y hy => hpre y (List.mem_cons_of_mem _ hy)
    simp only [List.cons_append, seriesLoop, hx]
    exact ih hr _

/-- Every list of series either has no failing iterator, or splits at the first
series whose iterator fails. -/
theorem split_first_error (l : List Series) :
    (∀ x ∈ l, x.iterator.err = none) ∨
    ∃ pre bad post e, l = pre ++ bad :: post ∧
      (∀ x ∈ pre, x.iterator.err = none) ∧ bad.iterator.err = some e := by
  induction l with
  | nil => left; simp
  | cons x rest ih =>
    cases hx : x.iterator.err with
    | some e => right; exact ⟨[], x, rest, e, by simp, by simp, hx⟩
    | none =>
      rcases ih with h | ⟨pre, bad, post, e, hl, hpre, hbad⟩
      · left
        intro y hy
        rcases List.mem_cons.mp hy with rfl | hy
        · exact hx
        · exact h y hy
      · right
        refine ⟨x :: pre, bad, post, e, by simp [hl], ?_, hbad⟩
        intro y hy
        rcases List.mem_cons.mp hy with rfl | hy
        · exact hx
        · exact hpre y hy

/-! ## Lemmas on traces and on the drain loop -/

theorem actsOf_append_act (k j : Nat) (a : Action) (trace : List Event) :
    actsOf k (trace ++ [Event.act j a]) =
      if j = k then actsOf k trace ++ [a] else actsOf k trace := by
  unfold actsOf
  rw [List.filterMap_append]
  by_cases h : j = k <;> simp [List.filterMap_cons, h]

theorem slotAfter_append (acts : List Action) (a : Action) :
    slotAfter (acts ++ [a]) =
      match a with
      | .write _ result => result
      | _ => slotAfter acts := by
  unfold slotAfter
  rw [List.foldl_append]
  cases a <;> rfl

theorem received_append_act (k : Nat) (a : Action) (trace : List Event) :
    received (trace ++ [Event.act k a]) =
      match a with
      | .send err => received trace ++ [err]
      | _ => received trace := by
  unfold received
  rw [List.filterMap_append]
  cases a <;> simp [List.filterMap_cons]

theorem mem_received (trace : List Event) (err : Option Error) :
    err ∈ received trace ↔ ∃ k, Event.act k (Action.send err) ∈ trace := by
  unfold received
  rw [List.mem_filterMap]
  constructor
  · rintro ⟨ev, hev, hm⟩
    cases ev with
    | act k a =>
      cases a with
      | send e =>
        simp at hm
        subst hm
        exact ⟨k, hev⟩
      | querier x y => simp at hm
      | select x y z => simp at hm
      | write i r => simp at hm
    | log m e => simp at hm
    | httpError b c => simp at hm
    | headerAdd k v => simp at hm
    | serialize resp => simp at hm
  · rintro ⟨k, hk⟩
    exact ⟨_, hk, rfl⟩

theorem mem_actsOf (k : Nat) (trace : List Event) (a : Action) :
    a ∈ actsOf k trace ↔ Event.act k a ∈ trace := by
  unfold actsOf
  rw [List.mem_filterMap]
  constructor
  · rintro ⟨ev, hev, hm⟩
    cases ev with
    | act j b =>
      by_cases hj : j = k
      · simp [hj] at hm
        subst hj hm
        exact hev
      · simp [hj] at hm
    | log m e => simp at hm
    | httpError b c => simp at hm
    | headerAdd k v => simp at hm
    | serialize resp => simp at hm
  · intro h
    exact ⟨_, h, by simp⟩

theorem foldl_recordErr_eq_none (sig : List (Option Error)) (cur : Option Error) :
    sig.foldl recordErr cur = none ↔ cur = none ∧ ∀ x ∈ sig, x = none := by
  induction sig generalizing cur with
  | nil => simp
  | cons x rest ih =>
    rw [List.foldl_cons, ih]
    cases x with
    | none => simp [recordErr]
    | some e => simp [recordErr]

theorem foldl_recordErr_all_none (post : List (Option Error)) (cur : Option Error)
    (h : ∀ x ∈ post, x = none) : post.foldl recordErr cur = cur := by
  induction post generalizing cur with
  | nil => rfl
  | cons x rest ih =>
    have hx : x = none := h x (List.mem_cons_self _ _)
    subst hx
    rw [List.foldl_cons]
    exact ih _ (fun y hy => h y (List.mem_cons_of_mem _ hy))

theorem foldl_recordErr_last (pre post : List (Option Error)) (e : Error) (cur : Option Error)
    (h : ∀ x ∈ post, x = none) :
    (pre ++ some e :: post).foldl recordErr cur = some e := by
  rw [List.foldl_append, List.foldl_cons]
  exact foldl_recordErr_all_none post _ h

theorem foldl_recordErr_mem (sig : List (Option Error)) (e : Error)
    (h : sig.foldl recordErr none = some e) : some e ∈ sig := by
  have key : ∀ (l : List (Option Error)) (cur : Option Error),
      l.foldl recordErr cur = some e → cur = some e ∨ some e ∈ l := by
    intro l
    induction l with
    | nil => intro cur hc; exact Or.inl hc
    | cons x rest ih =>
      intro cur hc
      rw [List.foldl_cons] at hc
      rcases ih _ hc with h1 | h1
      · cases x with
        | none => exact Or.inl h1
        | some e1 =>
          right
          simp only [recordErr] at h1
          rw [h1]
          exact List.mem_cons_self _ _
      · exact Or.inr (List.mem_cons_of_mem _ h1)
  rcases key sig none h with h1 | h1
  · cases h1
  · exact h1

theorem run_append (s : State) (a b : List Nat) : run s (a ++ b) = run (run s a) b := by
  simp [run, List.foldl_append]

theorem run_cons (s : State) (k : Nat) (sched : List Nat) :
    run s (k :: sched) = run (step s k) sched := rfl

/-! ## The invariant is kept by every move -/

theorem wellFormed_ne_nil {k : Nat} {u : List Action} (h : wellFormed k u = true) : u ≠ [] := by
  rintro rfl
  simp [wellFormed] at h

theorem countP_nonempty_pos {units : List (List Action)} {k : Nat} {a : Action}
    {rest : List Action} (hu : units[k]? = some (a :: rest)) :
    0 < units.countP (fun u => !u.isEmpty) := by
  rw [List.countP_pos_iff]
  exact ⟨a :: rest, List.getElem?_mem hu, by simp⟩

/-- One effective move of goroutine `k` keeps the invariant. -/
theorem inv_update {P : List (List Action)} {s : State} (h : Inv P s) {k : Nat} {a : Action}
    {rest : List Action} (hu : s.units[k]? = some (a :: rest)) (s1 : State)
    (hunits : s1.units = s.units.set k rest)
    (htrace : s1.trace = s.trace ++ [Event.act k a])
    (hres : s1.Results = resultsAfter k a s.Results)
    (hpend : s1.pending + sendCount a = s.pending)
    (hlast : s1.lastErr = lastErrAfter a s.lastErr) : Inv P s1 := by
  simp only [resultsAfter, sendCount, lastErrAfter] at hres hpend hlast
  have hk : k < s.units.length := by
    rcases List.getElem?_eq_some.mp hu with ⟨hk, _⟩
    exact hk
  have hkP : k < P.length := h.units_len ▸ hk
  have hwf : wellFormed k (a :: rest) = true := by
    rcases h.wf_units k _ hu with h0 | h0
    · simp at h0
    · exact h0
  have hget : s.units[k] = a :: rest := by
    rcases List.getElem?_eq_some.mp hu with ⟨_, h1⟩
    exact h1
  refine ⟨?_, ?_, ?_, ?_, ?_, ?_, ?_, ?_, ?_⟩
  · rw [hunits, List.length_set]; exact h.units_len
  · rw [hres]
    cases a <;> simp [h.results_len]
  · rw [hunits, List.countP_set _ _ _ _ hk, hget]
    have hpos := countP_nonempty_pos hu
    have hp := h.pending_eq
    cases a with
    | send err =>
      have hrest : rest = [] := by simpa [wellFormed] using hwf
      subst hrest
      simp at hpend ⊢
      omega
    | write i result =>
      have hrest : rest ≠ [] := by
        simp only [wellFormed, Bool.and_eq_true] at hwf
        exact wellFormed_ne_nil hwf.2
      simp [hrest] at hpend ⊢
      omega
    | querier x y =>
      have hrest : rest ≠ [] := by
        simp only [wellFormed] at hwf
        exact wellFormed_ne_nil hwf
      simp [hrest] at hpend ⊢
      omega
    | select x y z =>
      have hrest : rest ≠ [] := by
        simp only [wellFormed] at hwf
        exact wellFormed_ne_nil hwf
      simp [hrest] at hpend ⊢
      omega
  · intro j u hj
    rw [hunits, List.getElem?_set] at hj
    by_cases hjk : k = j
    · subst hjk
      simp [hk] at hj
      subst hj
      cases a with
      | send err =>
        left
        simpa [wellFormed] using hwf
      | write i result =>
        right
        simp only [wellFormed, Bool.and_eq_true] at hwf
        exact hwf.2
      | querier x y => right; simpa only [wellFormed] using hwf
      | select x y z => right; simpa only [wellFormed] using hwf
    · simp [hjk] at hj
      exact h.wf_units j u hj
  · intro j u hj
    rw [hunits, List.getElem?_set] at hj
    rw [htrace, actsOf_append_act]
    by_cases hjk : k = j
    · subst hjk
      simp [hk] at hj
      subst hj
      simpa using h.prog k _ hu
    · simp [hjk] at hj
      simp only [hjk, if_false]
      exact h.prog j u hj
  · intro j hj
    rw [htrace, actsOf_append_act, hres]
    have hjR : j < s.Results.length := h.results_len ▸ hj
    have hkR : k < s.Results.length := h.results_len ▸ hkP
    by_cases hjk : k = j
    · subst hjk
      simp only [if_true, slotAfter_append]
      cases a with
      | write i result => simp [List.getElem?_set, hkR]
      | send err => exact h.slots k hj
      | querier x y => exact h.slots k hj
      | select x y z => exact h.slots k hj
    · simp only [hjk, if_false]
      cases a with
      | write i result =>
        simp only
        rw [List.getElem?_set_ne hjk]
        exact h.slots j hj
      | send err => exact h.slots j hj
      | querier x y => exact h.slots j hj
      | select x y z => exact h.slots j hj
  · rw [hlast, htrace, received_append_act]
    cases a <;> simp [h.lastErr_eq, List.foldl_append]
  · rw [htrace, received_append_act]
    have := h.recv_len
    cases a <;> simp at hpend ⊢ <;> omega
  · intro ev hev
    rw [htrace] at hev
    rcases List.mem_append.mp hev with hev | hev
    · exact h.trace_acts ev hev
    · simp at hev
      exact ⟨k, a, hev, hkP⟩

/-- Every move of the semantics keeps the invariant. -/
theorem inv_step {P : List (List Action)} {s : State} (h : Inv P s) (k : Nat) :
    Inv P (step s k) := by
  unfold step
  cases hu : s.units[k]? with
  | none => exact h
  | some u =>
    cases u with
    | nil => exact h
    | cons a rest =>
      have hwf : wellFormed k (a :: rest) = true := by
        rcases h.wf_units k _ hu with h0 | h0
        · simp at h0
        · exact h0
      have hpos := countP_nonempty_pos hu
      have hp := h.pending_eq
      cases a with
      | send err =>
        have hne : s.pending ≠ 0 := by omega
        simp only [hne, if_false]
        exact inv_update h hu _ rfl rfl rfl (by show s.pending - 1 + 1 = s.pending; omega) rfl
      | write i result =>
        have hik : i = k := by
          simp only [wellFormed, Bool.and_eq_true, decide_eq_true_eq] at hwf
          exact hwf.1
        subst hik
        exact inv_update h hu _ rfl rfl rfl rfl rfl
      | querier x y => exact inv_update h hu _ rfl rfl rfl rfl rfl
      | select x y z => exact inv_update h hu _ rfl rfl rfl rfl rfl

theorem inv_run {P : List (List Action)} (sched : List Nat) {s : State} (h : Inv P s) :
    Inv P (run s sched) := by
  induction sched generalizing s with
  | nil => exact h
  | cons k rest ih => exact ih (inv_step h k)

theorem step_frame {P : List (List Action)} {s : State} (h : Inv P s) (k j : Nat)
    (hjk : j ≠ k) : (step s k).Results[j]? = s.Results[j]? := by
  unfold step
  cases hu : s.units[k]? with
  | none => rfl
  | some u =>
    cases u with
    | nil => rfl
    | cons a rest =>
      cases a with
      | send err =>
        by_cases hp : s.pending = 0 <;> simp [hp]
      | write i result =>
        have hik : i = k := by
          rcases h.wf_units k _ hu with h0 | h0
          · simp at h0
          · simp only [wellFormed, Bool.and_eq_true, decide_eq_true_eq] at h0
            exact h0.1
        subst hik
        simp only
        rw [List.getElem?_set_ne (Ne.symm hjk)]
      | querier x y => rfl
      | select x y z => rfl

theorem step_progress {P : List (List Action)} {s : State} (h : Inv P s)
    (hp : s.pending ≠ 0) : ∃ k a, (step s k).trace = s.trace ++ [Event.act k a] := by
  have hpos : 0 < s.units.countP (fun u => !u.isEmpty) := by
    rw [← h.pending_eq]; omega
  rw [List.countP_pos_iff] at hpos
  obtain ⟨u, hmem, hne⟩ := hpos
  obtain ⟨k, hk⟩ := List.mem_iff_getElem?.mp hmem
  cases u with
  | nil => simp at hne
  | cons a rest =>
    refine ⟨k, a, ?_⟩
    unfold step
    rw [hk]
    cases a <;> simp [hp]

/-! ## The launched goroutines -/

theorem launch_length (env : Env) (q : Queryable) (i : Nat) (qs : List QueryRequest) :
    (launch env q i qs).length = qs.length := by
  induction qs generalizing i with
  | nil => rfl
  | cons qr rest ih => simp [launch, ih]

theorem launch_getElem? (env : Env) (q : Queryable) (i k : Nat) (qs : List QueryRequest) :
    (launch env q i qs)[k]? = (qs[k]?).map (goroutine env q (i + k)) := by
  induction qs generalizing i k with
  | nil => simp [launch]
  | cons qr rest ih =>
    cases k with
    | zero => simp [launch]
    | succ k =>
      simp only [launch, List.getElem?_cons_succ, ih]
      have : i + 1 + k = i + (k + 1) := by omega
      rw [this]

theorem goroutine_wellFormed (env : Env) (q : Queryable) (i : Nat) (qr : QueryRequest) :
    wellFormed i (goroutine env q i qr) = true := by
  unfold goroutine
  cases env.FromQueryRequest qr with
  | error err => simp [wellFormed]
  | ok v =>
    obtain ⟨tFrom, tTo, matchers⟩ := v
    simp only
    cases q.Querier tFrom tTo with
    | error err => simp [wellFormed]
    | ok querier => simp [wellFormed]

theorem goroutine_conversion_error (env : Env) (q : Queryable) (i : Nat) (qr : QueryRequest)
    (e : Error) (h : env.FromQueryRequest qr = .error e) :
    goroutine env q i qr = [Action.send (some e)] := by
  simp [goroutine, h]

theorem goroutine_querier_error (env : Env) (q : Queryable) (i : Nat) (qr : QueryRequest)
    (tFrom tTo : Int) (matchers : List Matcher) (e : Error)
    (h1 : env.FromQueryRequest qr = .ok (tFrom, tTo, matchers))
    (h2 : q.Querier tFrom tTo = .error e) :
    goroutine env q i qr = [Action.querier tFrom tTo, Action.send (some e)] := by
  simp [goroutine, h1, h2]

theorem goroutine_select (env : Env) (q : Queryable) (i : Nat) (qr : QueryRequest)
    (tFrom tTo : Int) (matchers : List Matcher) (querier : Querier)
    (h1 : env.FromQueryRequest qr = .ok (tFrom, tTo, matchers))
    (h2 : q.Querier tFrom tTo = .ok querier) :
    goroutine env q i qr =
      [Action.querier tFrom tTo,
       Action.select false { Start := tFrom, End := tTo } matchers,
       Action.write i (seriesSetToQueryResponse env.FromLabelsToLabelAdapters
         (querier.Select false { Start := tFrom, End := tTo } matchers)).1,
       Action.send (seriesSetToQueryResponse env.FromLabelsToLabelAdapters
         (querier.Select false { Start := tFrom, End := tTo } matchers)).2] := by
  simp [goroutine, h1, h2]

theorem send_of_failure (env : Env) (q : Queryable) (i : Nat) (qr : QueryRequest)
    (hfail : (∃ e, env.FromQueryRequest qr = .error e) ∨
      (∃ tFrom tTo matchers e, env.FromQueryRequest qr = .ok (tFrom, tTo, matchers) ∧
        q.Querier tFrom tTo = .error e) ∨
      (∃ tFrom tTo matchers querier e,
        env.FromQueryRequest qr = .ok (tFrom, tTo, matchers) ∧
        q.Querier tFrom tTo = .ok querier ∧
        (seriesSetToQueryResponse env.FromLabelsToLabelAdapters
          (querier.Select false { Start := tFrom, End := tTo } matchers)).2 = some e)) :
    ∃ e, Action.send (some e) ∈ goroutine env q i qr := by
  rcases hfail with ⟨e, h⟩ | ⟨tFrom, tTo, matchers, e, h1, h2⟩ |
    ⟨tFrom, tTo, matchers, querier, e, h1, h2, h3⟩
  · exact ⟨e, by rw [goroutine_conversion_error env q i qr e h]; simp⟩
  · exact ⟨e, by rw [goroutine_querier_error env q i qr tFrom tTo matchers e h1 h2]; simp⟩
  · exact ⟨e, by rw [goroutine_select env q i qr tFrom tTo matchers querier h1 h2, h3]; simp⟩

theorem slot_of_ok (env : Env) (q : Queryable) (i : Nat) (qr : QueryRequest)
    (tFrom tTo : Int) (matchers : List Matcher) (querier : Querier)
    (h1 : env.FromQueryRequest qr = .ok (tFrom, tTo, matchers))
    (h2 : q.Querier tFrom tTo = .ok querier) :
    slotAfter (goroutine env q i qr) =
      (seriesSetToQueryResponse env.FromLabelsToLabelAdapters
        (querier.Select false { Start := tFrom, End := tTo } matchers)).1 := by
  rw [goroutine_select env q i qr tFrom tTo matchers querier h1 h2]
  rfl

theorem inv_init (env : Env) (q : Queryable) (req : ReadRequest) :
    Inv (launch env q 0 req.Queries) (init env q req) := by
  have hwf : ∀ k u, (launch env q 0 req.Queries)[k]? = some u → wellFormed k u = true := by
    intro k u hu
    rw [launch_getElem?] at hu
    rcases Option.map_eq_some'.mp hu with ⟨qr, _, rfl⟩
    simpa using goroutine_wellFormed env q k qr
  refine ⟨rfl, ?_, ?_, ?_, ?_, ?_, rfl, ?_, ?_⟩
  · simp [init, launch_length]
  · show req.Queries.length = _
    symm
    rw [← launch_length env q 0 req.Queries]
    show List.countP _ (launch env q 0 req.Queries) = _
    rw [List.countP_eq_length]
    intro u hu
    rcases List.mem_iff_getElem?.mp hu with ⟨k, hk⟩
    have := wellFormed_ne_nil (hwf k u hk)
    cases u with
    | nil => exact absurd rfl this
    | cons a rest => rfl
  · intro k u hu
    exact Or.inr (hwf k u hu)
  · intro k u hu
    simpa [init, actsOf] using hu
  · intro k hk
    rw [launch_length] at hk
    simp [init, actsOf, slotAfter, hk]
  · simp [init, received, launch_length]
  · intro ev hev
    simp [init] at hev

/-! ## Completion of the drain loop -/

theorem inv_done {P : List (List Action)} {s : State} (h : Inv P s) (hp : s.pending = 0)
    (k : Nat) (hk : k < P.length) : P[k]? = some (actsOf k s.trace) := by
  have hk1 : k < s.units.length := h.units_len ▸ hk
  have hz : s.units.countP (fun u => !u.isEmpty) = 0 := by rw [← h.pending_eq]; exact hp
  rw [List.countP_eq_zero] at hz
  have hu : s.units[k]? = some s.units[k] := List.getElem?_eq_getElem hk1
  have hnil : s.units[k] = [] := by
    have := hz _ (List.getElem?_mem hu)
    cases hc : s.units[k] with
    | nil => rfl
    | cons a rest => simp [hc] at this
  rw [hnil] at hu
  simpa using h.prog k _ hu

theorem measure_set (units : List (List Action)) (k : Nat) (a : Action) (rest : List Action)
    (hu : units[k]? = some (a :: rest)) :
    ((units.set k rest).map List.length).sum + 1 = (units.map List.length).sum := by
  induction units generalizing k with
  | nil => simp at hu
  | cons u us ih =>
    cases k with
    | zero =>
      simp at hu
      subst hu
      simp
      omega
    | succ k =>
      simp at hu
      have := ih k hu
      simp only [List.set_cons_succ, List.map_cons, List.sum_cons]
      omega

theorem step_units {P : List (List Action)} {s : State} (h : Inv P s) {k : Nat} {a : Action}
    {rest : List Action} (hu : s.units[k]? = some (a :: rest)) :
    (step s k).units = s.units.set k rest := by
  have hpos := countP_nonempty_pos hu
  have hp := h.pending_eq
  have hne : s.pending ≠ 0 := by omega
  unfold step
  rw [hu]
  cases a <;> simp [hne]

/-- From every reachable state some schedule lets the drain loop finish. -/
theorem exists_complete {P : List (List Action)} (n : Nat) :
    ∀ s : State, Inv P s → (s.units.map List.length).sum = n →
      ∃ sched, (run s sched).pending = 0 := by
  induction n with
  | zero =>
    intro s h hm
    by_cases hp : s.pending = 0
    · exact ⟨[], hp⟩
    · exfalso
      have hpos : 0 < s.units.countP (fun u => !u.isEmpty) := by
        rw [← h.pending_eq]; omega
      rw [List.countP_pos_iff] at hpos
      obtain ⟨u, hmem, hne⟩ := hpos
      obtain ⟨k, hk⟩ := List.mem_iff_getElem?.mp hmem
      cases u with
      | nil => simp at hne
      | cons a rest =>
        have := measure_set s.units k a rest hk
        omega
  | succ n ih =>
    intro s h hm
    by_cases hp : s.pending = 0
    · exact ⟨[], hp⟩
    · have hpos : 0 < s.units.countP (fun u => !u.isEmpty) := by
        rw [← h.pending_eq]; omega
      rw [List.countP_pos_iff] at hpos
      obtain ⟨u, hmem, hne⟩ := hpos
      obtain ⟨k, hk⟩ := List.mem_iff_getElem?.mp hmem
      cases u with
      | nil => simp at hne
      | cons a rest =>
        have hms := measure_set s.units k a rest hk
        have hst := step_units h hk
        obtain ⟨sched, hs⟩ := ih (step s k) (inv_step h k) (by rw [hst]; omega)
        exact ⟨k :: sched, hs⟩

/-- Every schedule extends to one after which the drain loop has finished. -/
theorem exists_extension (env : Env) (q : Queryable) (req : ReadRequest) (sched : List Nat) :
    ∃ more, (run (init env q req) (sched ++ more)).pending = 0 := by
  obtain ⟨more, hm⟩ := exists_complete (P := launch env q 0 req.Queries) _
    (run (init env q req) sched) (inv_run sched (inv_init env q req)) rfl
  exact ⟨more, by rw [run_append]; exact hm⟩

theorem handler_ok (env : Env) (q : Queryable) (r : Request) (req : ReadRequest)
    (sched : List Nat)
    (hparse : env.ParseProtoReader r.Body r.ContentLength maxRemoteReadQuerySize = .ok req) :
    RemoteReadHandler env q r sched =
      if (run (init env q req) sched).pending = 0 then
        some ((run (init env q req) sched).trace ++ respond env (run (init env q req) sched))
      else none := by
  simp [RemoteReadHandler, hparse]

theorem handler_returns (env : Env) (q : Queryable) (r : Request) (req : ReadRequest)
    (sched : List Nat)
    (hparse : env.ParseProtoReader r.Body r.ContentLength maxRemoteReadQuerySize = .ok req) :
    ∃ more, (RemoteReadHandler env q r (sched ++ more)).isSome = true := by
  obtain ⟨more, hm⟩ := exists_extension env q req sched
  refine ⟨more, ?_⟩
  rw [handler_ok env q r req _ hparse, if_pos hm]
  rfl

theorem done_acts (env : Env) (q : Queryable) (req : ReadRequest) (sched : List Nat)
    (hp : (run (init env q req) sched).pending = 0) (i : Nat) (hi : i < req.Queries.length) :
    actsOf i (run (init env q req) sched).trace = goroutine env q i req.Queries[i] := by
  have hinv := inv_run sched (inv_init env q req)
  have h1 := inv_done hinv hp i (by rw [launch_length]; exact hi)
  rw [launch_getElem?, List.getElem?_eq_getElem hi] at h1
  simp only [Option.map_some', Nat.zero_add, Option.some.injEq] at h1
  exact h1.symm

theorem done_slot (env : Env) (q : Queryable) (req : ReadRequest) (sched : List Nat)
    (hp : (run (init env q req) sched).pending = 0) (i : Nat) (hi : i < req.Queries.length) :
    (run (init env q req) sched).Results[i]? =
      some (slotAfter (goroutine env q i req.Queries[i])) := by
  have hinv := inv_run sched (inv_init env q req)
  rw [← done_acts env q req sched hp i hi]
  exact hinv.slots i (by rw [launch_length]; exact hi)

theorem run_results_length (env : Env) (q : Queryable) (req : ReadRequest) (sched : List Nat) :
    (run (init env q req) sched).Results.length = req.Queries.length := by
  have hinv := inv_run sched (inv_init env q req)
  rw [hinv.results_len, launch_length]

theorem run_trace_acts (env : Env) (q : Queryable) (req : ReadRequest) (sched : List Nat) :
    ∀ ev ∈ (run (init env q req) sched).trace,
      ∃ k a, ev = Event.act k a ∧ k < req.Queries.length := by
  have hinv := inv_run sched (inv_init env q req)
  intro ev hev
  obtain ⟨k, a, h1, h2⟩ := hinv.trace_acts ev hev
  exact ⟨k, a, h1, by rw [launch_length] at h2; exact h2⟩

/-- Every signal the drain loop received was sent by the goroutine of a
sub-query of the request. -/
theorem received_from_goroutine (env : Env) (q : Queryable) (req : ReadRequest)
    (sched : List Nat) (hp : (run (init env q req) sched).pending = 0) (err : Option Error)
    (h : err ∈ received (run (init env q req) sched).trace) :
    ∃ k, ∃ hk : k < req.Queries.length,
      Action.send err ∈ goroutine env q k req.Queries[k] := by
  obtain ⟨k, hk⟩ := (mem_received _ _).mp h
  obtain ⟨k1, a, h1, h2⟩ := run_trace_acts env q req sched _ hk
  cases h1
  refine ⟨k, h2, ?_⟩
  rw [← done_acts env q req sched hp k h2, mem_actsOf]
  exact hk

/-- Every signal a goroutine sends has been received once the loop finished. -/
theorem goroutine_signal_received (env : Env) (q : Queryable) (req : ReadRequest)
    (sched : List Nat) (hp : (run (init env q req) sched).pending = 0) (err : Option Error)
    (k : Nat) (hk : k < req.Queries.length)
    (h : Action.send err ∈ goroutine env q k req.Queries[k]) :
    err ∈ received (run (init env q req) sched).trace := by
  rw [mem_received]
  refine ⟨k, ?_⟩
  rw [← mem_actsOf, done_acts env q req sched hp k hk]
  exact h

theorem lastErr_none_of_all_ok (env : Env) (q : Queryable) (req : ReadRequest)
    (sched : List Nat) (hp : (run (init env q req) sched).pending = 0)
    (hok : ∀ i (hi : i < req.Queries.length), ∃ tFrom tTo matchers querier,
      env.FromQueryRequest req.Queries[i] = .ok (tFrom, tTo, matchers) ∧
      q.Querier tFrom tTo = .ok querier ∧
      (seriesSetToQueryResponse env.FromLabelsToLabelAdapters
        (querier.Select false { Start := tFrom, End := tTo } matchers)).2 = none) :
    (run (init env q req) sched).lastErr = none := by
  have hinv := inv_run sched (inv_init env q req)
  rw [hinv.lastErr_eq, foldl_recordErr_eq_none]
  refine ⟨rfl, ?_⟩
  intro x hx
  obtain ⟨k, hk, hmem⟩ := received_from_goroutine env q req sched hp x hx
  obtain ⟨tFrom, tTo, matchers, querier, h1, h2, h3⟩ := hok k hk
  rw [goroutine_select env q k _ tFrom tTo matchers querier h1 h2, h3] at hmem
  simpa using hmem

theorem lastErr_some_of_failure (env : Env) (q : Queryable) (req : ReadRequest)
    (sched : List Nat) (hp : (run (init env q req) sched).pending = 0)
    (j : Nat) (hj : j < req.Queries.length) (e0 : Error)
    (hsend : Action.send (some e0) ∈ goroutine env q j req.Queries[j]) :
    ∃ e, (run (init env q req) sched).lastErr = some e ∧
      ∃ k, ∃ hk : k < req.Queries.length,
        Action.send (some e) ∈ goroutine env q k req.Queries[k] := by
  have hinv := inv_run sched (inv_init env q req)
  have hrecv := goroutine_signal_received env q req sched hp (some e0) j hj hsend
  cases hl : (run (init env q req) sched).lastErr with
  | none =>
    rw [hinv.lastErr_eq, foldl_recordErr_eq_none] at hl
    exact absurd (hl.2 _ hrecv) (by simp)
  | some e =>
    refine ⟨e, rfl, ?_⟩
    rw [hinv.lastErr_eq] at hl
    exact received_from_goroutine env q req sched hp (some e) (foldl_recordErr_mem _ e hl)

/-! ## C1: slots are aligned with the request -/

/-- C1: for a decoded request whose sub-queries all succeed, the handler returns
(every schedule extends to one on which it does), and the response it hands to
the encoder has one slot per sub-query; slot `i` holds what
`seriesSetToQueryResponse` returns for the series set selected with the matchers
of sub-query `i`, hints `Start = from`, `End = to`, from the querier obtained for
the range `[from, to]` of sub-query `i`. -/
theorem response_index_aligned (env : Env) (q : Queryable) (r : Request) (req : ReadRequest)
    (sched : List Nat)
    (hparse : env.ParseProtoReader r.Body r.ContentLength maxRemoteReadQuerySize = .ok req)
    (hok : ∀ i (hi : i < req.Queries.length), ∃ tFrom tTo matchers querier,
      env.FromQueryRequest req.Queries[i] = .ok (tFrom, tTo, matchers) ∧
      q.Querier tFrom tTo = .ok querier ∧
      (seriesSetToQueryResponse env.FromLabelsToLabelAdapters
        (querier.Select false { Start := tFrom, End := tTo } matchers)).2 = none) :
    (∃ more, (RemoteReadHandler env q r (sched ++ more)).isSome = true) ∧
    ∀ out, RemoteReadHandler env q r sched = some out →
      ∃ tr resp tail,
        out = tr ++ Event.headerAdd "Content-Type" "application/x-protobuf" ::
          Event.serialize resp :: tail ∧
        (∀ ev ∈ tr, ∃ k a, ev = Event.act k a) ∧
        resp.Results.length = req.Queries.length ∧
        ∀ i (hi : i < req.Queries.length), ∃ tFrom tTo matchers querier,
          env.FromQueryRequest req.Queries[i] = .ok (tFrom, tTo, matchers) ∧
          q.Querier tFrom tTo = .ok querier ∧
          resp.Results[i]? = some (seriesSetToQueryResponse env.FromLabelsToLabelAdapters
            (querier.Select false { Start := tFrom, End := tTo } matchers)).1 := by
  refine ⟨handler_returns env q r req sched hparse, ?_⟩
  intro out hout
  rw [handler_ok env q r req sched hparse] at hout
  by_cases hp : (run (init env q req) sched).pending = 0
  · rw [if_pos hp] at hout
    have hl := lastErr_none_of_all_ok env q req sched hp hok
    simp only [respond, hl] at hout
    refine ⟨_, _, _, (Option.some.inj hout).symm, ?_, ?_, ?_⟩
    · intro ev hev
      obtain ⟨k, a, h1, _⟩ := run_trace_acts env q req sched ev hev
      exact ⟨k, a, h1⟩
    · exact run_results_length env q req sched
    · intro i hi
      obtain ⟨tFrom, tTo, matchers, querier, h1, h2, _⟩ := hok i hi
      refine ⟨tFrom, tTo, matchers, querier, h1, h2, ?_⟩
      show (run (init env q req) sched).Results[i]? = _
      rw [done_slot env q req sched hp i hi,
        slot_of_ok env q i _ tFrom tTo matchers querier h1 h2]
  · rw [if_neg hp] at hout
    cases hout

theorem response_index_aligned_witness :
    exEnv.ParseProtoReader exRequest.Body exRequest.ContentLength maxRemoteReadQuerySize =
      .ok exReq ∧
    RemoteReadHandler exEnv exQueryable exRequest exSched =
      some (exTrace ++ [Event.headerAdd "Content-Type" "application/x-protobuf",
        Event.serialize exResponse]) ∧
    ∃ tr resp tail,
      exTrace ++ [Event.headerAdd "Content-Type" "application/x-protobuf",
          Event.serialize exResponse] =
        tr ++ Event.headerAdd "Content-Type" "application/x-protobuf" ::
          Event.serialize resp :: tail ∧
      (∀ ev ∈ tr, ∃ k a, ev = Event.act k a) ∧
      resp.Results.length = exReq.Queries.length ∧
      ∀ i (hi : i < exReq.Queries.length), ∃ tFrom tTo matchers querier,
        exEnv.FromQueryRequest exReq.Queries[i] = .ok (tFrom, tTo, matchers) ∧
        exQueryable.Querier tFrom tTo = .ok querier ∧
        resp.Results[i]? = some (seriesSetToQueryResponse exEnv.FromLabelsToLabelAdapters
          (querier.Select false { Start := tFrom, End := tTo } matchers)).1 :=
  ⟨rfl, by decide,
    (response_index_aligned exEnv exQueryable exRequest exReq exSched rfl
      (fun i hi => by
        have hi2 : i = 0 ∨ i = 1 := by
          have : i < 2 := hi
          omega
        rcases hi2 with rfl | rfl
        · exact ⟨0, 100, [exMatcher], exQuerierA, rfl, rfl, rfl⟩
        · exact ⟨50, 150, [exMatcher], exQuerierB, rfl, rfl, rfl⟩)).2 _ (by decide)⟩

/-! ## C2: a failing sub-query fails the request -/

/-- C2: for a decoded request in which some sub-query fails (its conversion, the
acquisition of its querier, or its materialization returns an error), the handler
returns (every schedule extends to one on which it does), and all it does after
its goroutines moved is to answer 400 with the message of an error that one of
the goroutines sent; it adds no header and hands nothing to the encoder. -/
theorem failure_answers_bad_request (env : Env) (q : Queryable) (r : Request)
    (req : ReadRequest) (sched : List Nat)
    (hparse : env.ParseProtoReader r.Body r.ContentLength maxRemoteReadQuerySize = .ok req)
    (hfail : ∃ j, ∃ hj : j < req.Queries.length,
      (∃ e, env.FromQueryRequest req.Queries[j] = .error e) ∨
      (∃ tFrom tTo matchers e,
        env.FromQueryRequest req.Queries[j] = .ok (tFrom, tTo, matchers) ∧
        q.Querier tFrom tTo = .error e) ∨
      (∃ tFrom tTo matchers querier e,
        env.FromQueryRequest req.Queries[j] = .ok (tFrom, tTo, matchers) ∧
        q.Querier tFrom tTo = .ok querier ∧
        (seriesSetToQueryResponse env.FromLabelsToLabelAdapters
          (querier.Select false { Start := tFrom, End := tTo } matchers)).2 = some e)) :
    (∃ more, (RemoteReadHandler env q r (sched ++ more)).isSome = true) ∧
    ∀ out, RemoteReadHandler env q r sched = some out →
      ∃ tr e,
        out = tr ++ [Event.httpError e.message 400] ∧
        (∀ ev ∈ tr, ∃ k a, ev = Event.act k a) ∧
        (∃ k, ∃ hk : k < req.Queries.length,
          Action.send (some e) ∈ goroutine env q k req.Queries[k]) ∧
        (∀ resp, Event.serialize resp ∉ out) ∧
        ∀ key value, Event.headerAdd key value ∉ out := by
  refine ⟨handler_returns env q r req sched hparse, ?_⟩
  intro out hout
  rw [handler_ok env q r req sched hparse] at hout
  by_cases hp : (run (init env q req) sched).pending = 0
  · rw [if_pos hp] at hout
    obtain ⟨j, hj, hf⟩ := hfail
    obtain ⟨e0, he0⟩ := send_of_failure env q j _ hf
    obtain ⟨e, hl, hk⟩ := lastErr_some_of_failure env q req sched hp j hj e0 he0
    simp only [respond, hl] at hout
    have hout1 := (Option.some.inj hout).symm
    have hacts : ∀ ev ∈ (run (init env q req) sched).trace, ∃ k a, ev = Event.act k a := by
      intro ev hev
      obtain ⟨k, a, h1, _⟩ := run_trace_acts env q req sched ev hev
      exact ⟨k, a, h1⟩
    refine ⟨_, e, hout1, hacts, hk, ?_, ?_⟩
    · intro resp hmem
      rw [hout1] at hmem
      rcases List.mem_append.mp hmem with h1 | h1
      · obtain ⟨k, a, h2⟩ := hacts _ h1
        cases h2
      · simp at h1
    · intro key value hmem
      rw [hout1] at hmem
      rcases List.mem_append.mp hmem with h1 | h1
      · obtain ⟨k, a, h2⟩ := hacts _ h1
        cases h2
      · simp at h1
  · rw [if_neg hp] at hout
    cases hout

theorem failure_answers_bad_request_witness :
    exEnv.ParseProtoReader exRequest.Body exRequest.ContentLength maxRemoteReadQuerySize =
      .ok exReq ∧
    RemoteReadHandler exEnv exQueryableBad exRequest exSched =
      some (exTraceBad ++ [Event.httpError "iterator failed" 400]) ∧
    ∃ tr e,
      exTraceBad ++ [Event.httpError "iterator failed" 400] =
        tr ++ [Event.httpError e.message 400] ∧
      (∀ ev ∈ tr, ∃ k a, ev = Event.act k a) ∧
      (∃ k, ∃ hk : k < exReq.Queries.length,
        Action.send (some e) ∈ goroutine exEnv exQueryableBad k exReq.Queries[k]) ∧
      (∀ resp, Event.serialize resp ∉
        exTraceBad ++ [Event.httpError "iterator failed" 400]) ∧
      ∀ key value, Event.headerAdd key value ∉
        exTraceBad ++ [Event.httpError "iterator failed" 400] :=
  ⟨rfl, by decide,
    (failure_answers_bad_request exEnv exQueryableBad exRequest exReq exSched rfl
      ⟨1, by decide, Or.inr (Or.inr ⟨50, 150, [exMatcher], exQuerierBad,
        { message := "iterator failed" }, rfl, rfl, rfl⟩)⟩).2 _ (by decide)⟩

/-! ## C3: materialization of an error-free series set -/

/-- C3: for a series set whose iteration reports no error (no sample iterator and
not the set itself), `seriesSetToQueryResponse` returns a nil error and a
response with one time series per series of the set, in the order of the set;
each carries the converted labels of its series and exactly the samples the
iterator yielded, in the order yielded (an empty list when it yielded none). -/
theorem seriesSetToQueryResponse_materializes (conv : Labels → List LabelAdapter)
    (s : SeriesSet) (hit : ∀ x ∈ s.series, x.iterator.err = none) (hset : s.err = none) :
    seriesSetToQueryResponse conv s =
      (some { Timeseries := s.series.map fun x =>
                { Labels := conv x.labels
                  Samples := x.iterator.samples.map fun p =>
                    { TimestampMs := p.1, Value := p.2 } } },
       none) := by
  unfold seriesSetToQueryResponse
  rw [seriesLoop_ok conv s.series hit, hset]
  simp [toTimeSeries]

theorem seriesSetToQueryResponse_materializes_witness :
    (∀ x ∈ exSetOk.series, x.iterator.err = none) ∧ exSetOk.err = none ∧
    seriesSetToQueryResponse exConv exSetOk =
      (some { Timeseries :=
          [{ Labels := [{ Name := "__name__", Value := "up" }]
             Samples := [{ TimestampMs := 60, Value := 4602678819172646912 },
                         { TimestampMs := 120, Value := 4604480259023595110 }] },
           { Labels := [], Samples := [] }] },
       none) :=
  ⟨by decide, rfl, seriesSetToQueryResponse_materializes exConv exSetOk (by decide) rfl⟩

/-! ## C4: an iterator error fails fast -/

/-- C4: when some series of the set has a sample iterator that ends with an
error, `seriesSetToQueryResponse` returns a nil response and the error of the
first such series; what was materialized before is dropped, and the outcome does
not depend on the series after it nor on the error of the set: they are never
consumed. -/
theorem seriesSetToQueryResponse_fails_fast (conv : Labels → List LabelAdapter)
    (s : SeriesSet) (h : ∃ x ∈ s.series, x.iterator.err ≠ none) :
    ∃ pre bad post e,
      s.series = pre ++ bad :: post ∧
      (∀ x ∈ pre, x.iterator.err = none) ∧
      bad.iterator.err = some e ∧
      seriesSetToQueryResponse conv s = (none, some e) ∧
      ∀ post2 err2,
        seriesSetToQueryResponse conv { series := pre ++ bad :: post2, err := err2 } =
          (none, some e) := by
  rcases split_first_error s.series with hall | ⟨pre, bad, post, e, hl, hpre, hbad⟩
  · obtain ⟨x, hx, hne⟩ := h
    exact absurd (hall x hx) hne
  · refine ⟨pre, bad, post, e, hl, hpre, hbad, ?_, ?_⟩
    · unfold seriesSetToQueryResponse
      rw [hl, seriesLoop_error conv pre bad post e hpre hbad]
    · intro post2 err2
      unfold seriesSetToQueryResponse
      simp only
      rw [seriesLoop_error conv pre bad post2 e hpre hbad]

theorem seriesSetToQueryResponse_fails_fast_witness :
    (∃ x ∈ exSetIterErr.series, x.iterator.err ≠ none) ∧
    ∃ pre bad post e,
      exSetIterErr.series = pre ++ bad :: post ∧
      (∀ x ∈ pre, x.iterator.err = none) ∧
      bad.iterator.err = some e ∧
      seriesSetToQueryResponse exConv exSetIterErr = (none, some e) ∧
      ∀ post2 err2,
        seriesSetToQueryResponse exConv { series := pre ++ bad :: post2, err := err2 } =
          (none, some e) :=
  ⟨by decide, seriesSetToQueryResponse_fails_fast exConv exSetIterErr (by decide)⟩

/-! ## C5: what is returned next to an error -/

/-- C5: the claim asks that a response returned next to a non-nil error holds no
time series. At the set `exSetErr`, which yields one series and then reports an
error itself, `seriesSetToQueryResponse` returns that error together with a
response that holds the series (line 106), and the goroutine stores this response
in its slot before it sends the error; at `exSetIterErr`, where a sample iterator
fails, the sibling path of line 98 returns a nil response. -/
theorem seriesSetToQueryResponse_set_error_keeps_series :
    seriesSetToQueryResponse exConv exSetErr =
      (some { Timeseries :=
          [{ Labels := [{ Name := "__name__", Value := "up" }]
             Samples := [{ TimestampMs := 10, Value := 4607182418800017408 }] }] },
       some { message := "set failed" }) ∧
    goroutine exEnv exQueryableSetErr 0 exQueryA =
      [Action.querier 0 100,
       Action.select false { Start := 0, End := 100 } [exMatcher],
       Action.write 0 (some { Timeseries :=
          [{ Labels := [{ Name := "__name__", Value := "up" }]
             Samples := [{ TimestampMs := 10, Value := 4607182418800017408 }] }] }),
       Action.send (some { message := "set failed" })] ∧
    seriesSetToQueryResponse exConv exSetIterErr =
      (none, some { message := "iterator failed" }) ∧
    ¬ ((seriesSetToQueryResponse exConv exSetErr).2 ≠ none →
        ∀ r, (seriesSetToQueryResponse exConv exSetErr).1 = some r → r.Timeseries = []) := by
  refine ⟨by decide, by decide, by decide, ?_⟩
  intro h
  have h1 := h (by decide)
    { Timeseries := [{ Labels := [{ Name := "__name__", Value := "up" }]
                       Samples := [{ TimestampMs := 10, Value := 4607182418800017408 }] }] }
    (by decide)
  exact absurd h1 (by decide)

/-! ## C6: decode failures -/

/-- C6: the size ceiling handed to the decoder is 1048576 bytes, and it is
checked against the declared content length; whenever decoding fails, the handler
logs, answers 400 with the message of the decode error and does nothing else (no
goroutine is launched, so no querier is requested, and nothing is encoded); a
request whose declared length exceeds the ceiling is such a request. -/
theorem decode_failure_short_circuits (env : Env) (q : Queryable) (r : Request)
    (sched : List Nat) :
    maxRemoteReadQuerySize = 1048576 ∧
    (∀ err, env.ParseProtoReader r.Body r.ContentLength maxRemoteReadQuerySize = .error err →
      RemoteReadHandler env q r sched =
        some [Event.log "failed to parse proto" err.message,
              Event.httpError err.message 400]) ∧
    (∀ decode, env.ParseProtoReader = ParseProtoReader decode → 1048576 < r.ContentLength →
      RemoteReadHandler env q r sched =
        some [Event.log "failed to parse proto" PayloadTooLarge.message,
              Event.httpError PayloadTooLarge.message 400]) := by
  refine ⟨by decide, ?_, ?_⟩
  · intro err herr
    simp [RemoteReadHandler, herr, StatusBadRequest]
  · intro decode hdec hbig
    have hfail : env.ParseProtoReader r.Body r.ContentLength maxRemoteReadQuerySize =
        .error PayloadTooLarge := by
      rw [hdec]
      unfold ParseProtoReader
      have : r.ContentLength > maxRemoteReadQuerySize := by
        show maxRemoteReadQuerySize < r.ContentLength
        have : maxRemoteReadQuerySize = 1048576 := by decide
        omega
      simp [this]
    simp [RemoteReadHandler, hfail, StatusBadRequest]

theorem decode_failure_short_circuits_witness :
    exEnv.ParseProtoReader = ParseProtoReader exDecode ∧
    (1048576 : Int) < exBigRequest.ContentLength ∧
    RemoteReadHandler exEnv exQueryable exBigRequest exSched =
      some [Event.log "failed to parse proto" "PayloadTooLarge",
            Event.httpError "PayloadTooLarge" 400] :=
  ⟨rfl, by decide,
    (decode_failure_short_circuits exEnv exQueryable exBigRequest exSched).2.2
      exDecode rfl (by decide)⟩

/-! ## C7: the recorded failure -/

/-- C7: the drain loop records nil exactly when every signal it received is nil,
and otherwise the last non-nil signal in the order received, whichever goroutine
sent it; the handler returns (every schedule extends to one on which it does),
and it has received as many signals as the request has sub-queries before it acts
on the recorded failure: what it does with `lastErr` comes after everything its
goroutines did. -/
theorem last_error_wins (env : Env) (q : Queryable) (r : Request) (req : ReadRequest)
    (sched : List Nat) (sig : List (Option Error))
    (hparse : env.ParseProtoReader r.Body r.ContentLength maxRemoteReadQuerySize = .ok req) :
    (sig.foldl recordErr none = none ↔ ∀ x ∈ sig, x = none) ∧
    (∀ pre e post, sig = pre ++ some e :: post → (∀ x ∈ post, x = none) →
      sig.foldl recordErr none = some e) ∧
    (∃ more, (RemoteReadHandler env q r (sched ++ more)).isSome = true) ∧
    ∀ out, RemoteReadHandler env q r sched = some out →
      (received (run (init env q req) sched).trace).length = req.Queries.length ∧
      (run (init env q req) sched).lastErr =
        (received (run (init env q req) sched).trace).foldl recordErr none ∧
      out = (run (init env q req) sched).trace ++
        respond env (run (init env q req) sched) := by
  have hinv := inv_run sched (inv_init env q req)
  refine ⟨?_, ?_, handler_returns env q r req sched hparse, ?_⟩
  · rw [foldl_recordErr_eq_none]
    simp
  · intro pre e post hs hpost
    rw [hs]
    exact foldl_recordErr_last pre post e none hpost
  · intro out hout
    rw [handler_ok env q r req sched hparse] at hout
    by_cases hp : (run (init env q req) sched).pending = 0
    · rw [if_pos hp] at hout
      refine ⟨?_, hinv.lastErr_eq, (Option.some.inj hout).symm⟩
      have := hinv.recv_len
      rw [launch_length] at this
      omega
    · rw [if_neg hp] at hout
      cases hout

theorem last_error_wins_witness :
    exEnv.ParseProtoReader exRequest.Body exRequest.ContentLength maxRemoteReadQuerySize =
      .ok exReq ∧
    RemoteReadHandler exEnv exQueryableBad exRequest exSched =
      some (exTraceBad ++ [Event.httpError "iterator failed" 400]) ∧
    (received (run (init exEnv exQueryableBad exReq) exSched).trace).length =
      exReq.Queries.length ∧
    (run (init exEnv exQueryableBad exReq) exSched).lastErr =
      (received (run (init exEnv exQueryableBad exReq) exSched).trace).foldl recordErr none ∧
    exTraceBad ++ [Event.httpError "iterator failed" 400] =
      (run (init exEnv exQueryableBad exReq) exSched).trace ++
        respond exEnv (run (init exEnv exQueryableBad exReq) exSched) :=
  ⟨rfl, by decide,
    (last_error_wins exEnv exQueryableBad exRequest exReq exSched
      [none, some { message := "iterator failed" }] rfl).2.2.2 _ (by decide)⟩

/-! ## C8: slot ownership -/

/-- C8: a goroutine writes no slot but its own, so a move of goroutine `k` leaves
every slot `j ≠ k` as it was; after any two schedules that let the drain loop
finish the slot array is the same, and slot `i` holds what the goroutine of
sub-query `i` stored, whatever the order of completion. -/
theorem slot_ownership (env : Env) (q : Queryable) (req : ReadRequest)
    (sched1 sched2 : List Nat)
    (h1 : (run (init env q req) sched1).pending = 0)
    (h2 : (run (init env q req) sched2).pending = 0) :
    (∀ i qr j result, Action.write j result ∈ goroutine env q i qr → j = i) ∧
    (∀ sched k j, j ≠ k →
      (step (run (init env q req) sched) k).Results[j]? =
        (run (init env q req) sched).Results[j]?) ∧
    (run (init env q req) sched1).Results = (run (init env q req) sched2).Results ∧
    ∀ i (hi : i < req.Queries.length),
      (run (init env q req) sched1).Results[i]? =
        some (slotAfter (goroutine env q i req.Queries[i])) := by
  refine ⟨?_, ?_, ?_, ?_⟩
  · intro i qr j result hmem
    unfold goroutine at hmem
    cases hc : env.FromQueryRequest qr with
    | error err => simp [hc] at hmem
    | ok v =>
      obtain ⟨tFrom, tTo, matchers⟩ := v
      simp only [hc] at hmem
      cases hq : q.Querier tFrom tTo with
      | error err => simp [hq] at hmem
      | ok querier =>
        simp [hq] at hmem
        exact hmem.1
  · intro sched k j hjk
    exact step_frame (inv_run sched (inv_init env q req)) k j hjk
  · apply List.ext_getElem?
    intro i
    by_cases hi : i < req.Queries.length
    · rw [done_slot env q req sched1 h1 i hi, done_slot env q req sched2 h2 i hi]
    · have e1 := run_results_length env q req sched1
      have e2 := run_results_length env q req sched2
      rw [List.getElem?_eq_none (by omega), List.getElem?_eq_none (by omega)]
  · intro i hi
    exact done_slot env q req sched1 h1 i hi

theorem slot_ownership_witness :
    (run (init exEnv exQueryable exReq) exSched).pending = 0 ∧
    (run (init exEnv exQueryable exReq) exSchedInOrder).pending = 0 ∧
    (run (init exEnv exQueryable exReq) exSched).Results =
      (run (init exEnv exQueryable exReq) exSchedInOrder).Results :=
  ⟨by decide, by decide,
    (slot_ownership exEnv exQueryable exReq exSched exSchedInOrder
      (by decide) (by decide)).2.2.1⟩

/-! ## C9: one signal per goroutine -/

/-- C9: on each of its three paths a goroutine sends exactly one signal, as its
last effect (the conversion error, the querier error, or the error-or-nil of the
materialization after the slot was written). After any schedule the signals
received and the iterations the drain loop has left add up to the number of
sub-queries; when the loop has finished, every goroutine has performed all its
effects, its slot write included; while it has not, some goroutine can move; nothing
but the goroutines of the sub-queries acts or sends, and every schedule extends
to one that lets the loop finish. -/
theorem one_signal_per_goroutine (env : Env) (q : Queryable) (req : ReadRequest)
    (sched : List Nat) :
    (∀ i qr,
      (∃ pre err, goroutine env q i qr = pre ++ [Action.send err] ∧
        ∀ a ∈ pre, ∀ e, a ≠ Action.send e) ∧
      (∀ e, env.FromQueryRequest qr = .error e →
        goroutine env q i qr = [Action.send (some e)]) ∧
      (∀ tFrom tTo matchers e, env.FromQueryRequest qr = .ok (tFrom, tTo, matchers) →
        q.Querier tFrom tTo = .error e →
        goroutine env q i qr = [Action.querier tFrom tTo, Action.send (some e)]) ∧
      (∀ tFrom tTo matchers querier, env.FromQueryRequest qr = .ok (tFrom, tTo, matchers) →
        q.Querier tFrom tTo = .ok querier →
        goroutine env q i qr =
          [Action.querier tFrom tTo,
           Action.select false { Start := tFrom, End := tTo } matchers,
           Action.write i (seriesSetToQueryResponse env.FromLabelsToLabelAdapters
             (querier.Select false { Start := tFrom, End := tTo } matchers)).1,
           Action.send (seriesSetToQueryResponse env.FromLabelsToLabelAdapters
             (querier.Select false { Start := tFrom, End := tTo } matchers)).2])) ∧
    (received (run (init env q req) sched).trace).length +
      (run (init env q req) sched).pending = req.Queries.length ∧
    ((run (init env q req) sched).pending = 0 →
      ∀ i (hi : i < req.Queries.length),
        actsOf i (run (init env q req) sched).trace = goroutine env q i req.Queries[i]) ∧
    ((run (init env q req) sched).pending ≠ 0 →
      ∃ k a, (step (run (init env q req) sched) k).trace =
        (run (init env q req) sched).trace ++ [Event.act k a]) ∧
    (∀ ev ∈ (run (init env q req) sched).trace,
      ∃ k a, ev = Event.act k a ∧ k < req.Queries.length) ∧
    ∃ more, (run (init env q req) (sched ++ more)).pending = 0 := by
  have hinv := inv_run sched (inv_init env q req)
  refine ⟨?_, ?_, ?_, ?_, run_trace_acts env q req sched, exists_extension env q req sched⟩
  · intro i qr
    refine ⟨?_, goroutine_conversion_error env q i qr, ?_, ?_⟩
    · unfold goroutine
      cases env.FromQueryRequest qr with
      | error err => exact ⟨[], some err, rfl, by simp⟩
      | ok v =>
        obtain ⟨tFrom, tTo, matchers⟩ := v
        simp only
        cases q.Querier tFrom tTo with
        | error err => exact ⟨[Action.querier tFrom tTo], some err, rfl, by simp⟩
        | ok querier =>
          exact ⟨[Action.querier tFrom tTo,
            Action.select false { Start := tFrom, End := tTo } matchers,
            Action.write i (seriesSetToQueryResponse env.FromLabelsToLabelAdapters
              (querier.Select false { Start := tFrom, End := tTo } matchers)).1], _, rfl,
            by simp⟩
    · intro tFrom tTo matchers e h1 h2
      exact goroutine_querier_error env q i qr tFrom tTo matchers e h1 h2
    · intro tFrom tTo matchers querier h1 h2
      exact goroutine_select env q i qr tFrom tTo matchers querier h1 h2
  · have := hinv.recv_len
    rw [launch_length] at this
    exact this
  · intro hp i hi
    exact done_acts env q req sched hp i hi
  · intro hp
    exact step_progress hinv hp

theorem one_signal_per_goroutine_witness :
    (run (init exEnv exQueryableBad exReq) exSched).pending = 0 ∧
    actsOf 1 (run (init exEnv exQueryableBad exReq) exSched).trace =
      [Action.querier 50 150,
       Action.select false { Start := 50, End := 150 } [exMatcher],
       Action.write 1 none,
       Action.send (some { message := "iterator failed" })] :=
  ⟨by decide,
   (one_signal_per_goroutine exEnv exQueryableBad exReq exSched).2.2.1
      (by decide) 1 (by decide)⟩

/-! ## C10: header and encoding order -/

/-- C10 as stated fails: on a request whose two sub-queries succeed, the handler
adds the `Content-Type` header (event 8) before anything is handed to the
encoder (event 9). -/
theorem header_before_encoding_counterexample :
    ¬ (∀ out, RemoteReadHandler exEnvEncodeFail exQueryable exRequest exSched = some out →
        ∀ k key value, out[k]? = some (Event.headerAdd key value) →
          ∃ (j : Nat) (resp : ReadResponse), j < k ∧ out[j]? = some (Event.serialize resp)) := by
  intro h
  have hval : RemoteReadHandler exEnvEncodeFail exQueryable exRequest exSched =
      some (exTrace ++ [Event.headerAdd "Content-Type" "application/x-protobuf",
        Event.serialize exResponse,
        Event.log "error sending remote read response" "encode failed"]) := by decide
  obtain ⟨j, resp, hj, hget⟩ :=
    h _ hval 8 "Content-Type" "application/x-protobuf" (by decide)
  have hcases : j = 0 ∨ j = 1 ∨ j = 2 ∨ j = 3 ∨ j = 4 ∨ j = 5 ∨ j = 6 ∨ j = 7 := by omega
  rcases hcases with rfl | rfl | rfl | rfl | rfl | rfl | rfl | rfl <;>
    simp [exTrace] at hget

/-- C10 amended: for a decoded request whose sub-queries all succeed, the handler
returns (every schedule extends to one on which it does), and once its goroutines
have moved it first adds the header `Content-Type: application/x-protobuf`, then
calls `SerializeProtoResponse` on the response, and when that call returns an
error the handler itself only logs the error. -/
theorem header_then_serialize (env : Env) (q : Queryable) (r : Request) (req : ReadRequest)
    (sched : List Nat)
    (hparse : env.ParseProtoReader r.Body r.ContentLength maxRemoteReadQuerySize = .ok req)
    (hok : ∀ i (hi : i < req.Queries.length), ∃ tFrom tTo matchers querier,
      env.FromQueryRequest req.Queries[i] = .ok (tFrom, tTo, matchers) ∧
      q.Querier tFrom tTo = .ok querier ∧
      (seriesSetToQueryResponse env.FromLabelsToLabelAdapters
        (querier.Select false { Start := tFrom, End := tTo } matchers)).2 = none) :
    (∃ more, (RemoteReadHandler env q r (sched ++ more)).isSome = true) ∧
    ∀ out, RemoteReadHandler env q r sched = some out →
      ∃ tr resp,
        (∀ ev ∈ tr, ∃ k a, ev = Event.act k a) ∧
        out = tr ++ Event.headerAdd "Content-Type" "application/x-protobuf" ::
          Event.serialize resp ::
          (match env.SerializeProtoResponse resp with
           | some err => [Event.log "error sending remote read response" err.message]
           | none => []) := by
  refine ⟨handler_returns env q r req sched hparse, ?_⟩
  intro out hout
  rw [handler_ok env q r req sched hparse] at hout
  by_cases hp : (run (init env q req) sched).pending = 0
  · rw [if_pos hp] at hout
    have hl := lastErr_none_of_all_ok env q req sched hp hok
    simp only [respond, hl] at hout
    refine ⟨_, _, ?_, (Option.some.inj hout).symm⟩
    intro ev hev
    obtain ⟨k, a, h1, _⟩ := run_trace_acts env q req sched ev hev
    exact ⟨k, a, h1⟩
  · rw [if_neg hp] at hout
    cases hout

theorem header_then_serialize_witness :
    exEnvEncodeFail.ParseProtoReader exRequest.Body exRequest.ContentLength
      maxRemoteReadQuerySize = .ok exReq ∧
    RemoteReadHandler exEnvEncodeFail exQueryable exRequest exSched =
      some (exTrace ++ [Event.headerAdd "Content-Type" "application/x-protobuf",
        Event.serialize exResponse,
        Event.log "error sending remote read response" "encode failed"]) ∧
    ∃ tr resp,
      (∀ ev ∈ tr, ∃ k a, ev = Event.act k a) ∧
      exTrace ++ [Event.headerAdd "Content-Type" "application/x-protobuf",
          Event.serialize exResponse,
          Event.log "error sending remote read response" "encode failed"] =
        tr ++ Event.headerAdd "Content-Type" "application/x-protobuf" ::
          Event.serialize resp ::
          (match exEnvEncodeFail.SerializeProtoResponse resp with
           | some err => [Event.log "error sending remote read response" err.message]
           | none => []) :=
  ⟨rfl, by decide,
    (header_then_serialize exEnvEncodeFail exQueryable exRequest exReq exSched rfl
      (fun i hi => by
        have hi2 : i = 0 ∨ i = 1 := by
          have : i < 2 := hi
          omega
        rcases hi2 with rfl | rfl
        · exact ⟨0, 100, [exMatcher], exQuerierA, rfl, rfl, rfl⟩
        · exact ⟨50, 150, [exMatcher], exQuerierB, rfl, rfl, rfl⟩)).2 _ (by decide)⟩

end RemoteRead
